import Mathlib

/-!
Verification of the `quintans/fsm` finite-state-machine engine (Go).

This file shallowly embeds the engine found in `fsm.go` (the variant built
around `Context`, `StateMachine`, `StateMachineInstance`, state- and
machine-scoped fallbacks) together with the Dot graph renderer (`dot.go`).

Modelling conventions:
* Go `*State` pointers are modelled as natural-number ids into a heap
  `heap : Nat → State`; pointer identity is id equality.  The heap is total,
  mirroring the fact that every pointer the machine stores references a live
  `State` object.
* Go maps `map[interface{}]*State` are modelled as association lists with a
  first-match lookup (construction keeps keys unique, so this coincides with
  map semantics); the event-key type `K` and payload type `D` are parameters
  (`interface{}` keys/data in Go).
* Handlers (`OnHandler = func(*Context)`) receive a pointer to the episode's
  context and may mutate it; they are modelled as functions `Context → Context`
  threaded through the episode.  The side effects a host application performs
  inside handlers are captured by an instrumentation trace (`TraceEv`) emitted
  by the engine at each handler/listener invocation.
* The only `EventOption` constructor the source defines is `WithData`, so
  options are modelled by the inductive `EventOption`.  The `context.Context`
  field of `Context` is never set by any constructor or option in the source
  (only the getter defaults it to `Background`), so it and the dead
  `WithData(c.context)` branch of `Context.Fire` are omitted.
* `StateMachine.fire` recurses on chained events without a bound in Go; the
  model adds explicit fuel and a distinguished `outOfFuel` outcome.
* Go slice/struct copying in `FromState` (`smCopy := *s`) is modelled by the
  value semantics of the Lean structure: an instance carries its own copy of
  the definition, as the Go code copies the `StateMachine` struct (and hence
  the `onTransitionListeners` slice header) at instance-creation time.
-/

namespace Fsm

section Model

variable {K D : Type}

/-- The event options of the source: `WithData(data)` sets `ctx.data`. -/
inductive EventOption (K D : Type) where
  | withData (d : D)
deriving DecidableEq

/-- Go `fireEvent`: the follow-up request stored by `Context.Fire`. -/
structure fireEvent (K D : Type) where
  key : K
  options : List (EventOption K D)
deriving DecidableEq

/-- Go `Context`: the firing envelope.  `from`/`to` hold state ids. -/
structure Context (K D : Type) where
  eventKey : K
  data : Option D := none
  toS : Option Nat := none
  fromS : Option Nat := none
  fire : Option (fireEvent K D) := none
deriving DecidableEq

/-- Applying one `EventOption` to a context (`option(ctx)` in Go). -/
def applyOption (o : EventOption K D) (c : Context K D) : Context K D :=
  match o with
  | EventOption.withData d => { c with data := some d }

/-- Go `Context.Fire`: records a follow-up event to be fired after the
`onEvent` handler returns, carrying the current payload (if any) before the
caller's override options. -/
def Context.Fire (c : Context K D) (key : K) (overrideOptions : List (EventOption K D)) :
    Context K D :=
  let options :=
    (match c.data with
     | some d => [EventOption.withData d]
     | none => []) ++ overrideOptions
  { c with fire := some { key := key, options := options } }

/-- Go `Context.nextContext`: builds the context of the chained episode from
the recorded follow-up request, if any. -/
def Context.nextContext (c : Context K D) : Option (Context K D) :=
  match c.fire with
  | none => none
  | some f => some (f.options.foldl (fun ctx o => applyOption o ctx) { eventKey := f.key })

/-- Go `Context.SetFrom` (returns an updated copy). -/
def Context.SetFrom (c : Context K D) (s : Nat) : Context K D :=
  { c with fromS := some s }

/-- Go `Context.SetTo` (returns an updated copy). -/
def Context.SetTo (c : Context K D) (s : Nat) : Context K D :=
  { c with toS := some s }

/-- Go `State`: name, keyed transitions, the two fallback mechanisms and the
three optional handlers.  Target states and handler results are state ids. -/
structure State (K D : Type) where
  name : String
  transitions : List (K × Nat) := []
  fallbackTransition : Option Nat := none
  fallbackHandler : Option (Context K D → Option Nat) := none
  onEnter : Option (Context K D → Context K D) := none
  onEvent : Option (Context K D → Context K D) := none
  onExit : Option (Context K D → Context K D) := none

/-- Go `State.SetFallbackTransition`: sets the static fallback and clears the
dynamic handler. -/
def State.SetFallbackTransition (s : State K D) (target : Nat) : State K D :=
  { s with fallbackTransition := some target, fallbackHandler := none }

/-- Go `State.SetFallbackHandler`: sets the dynamic handler and clears the
static fallback. -/
def State.SetFallbackHandler (s : State K D) (handler : Context K D → Option Nat) :
    State K D :=
  { s with fallbackHandler := some handler, fallbackTransition := none }

/-- Go `StateMachine`: the shared definition.  `heap` dereferences state ids;
`states` models the `map[string]*State` registry (list order standing for the
map's iteration order), `orderedStates` the insertion-ordered slice. -/
structure StateMachine (K D : Type) where
  name : String
  heap : Nat → State K D
  states : List (String × Nat) := []
  orderedStates : List Nat := []
  onTransitionListeners : List Nat := []
  fallbackHandler : Option (Context K D → Option Nat) := none
  fallbackState : Option Nat := none

/-- Go `StateMachine.SetFallbackHandler`: sets the machine-scoped dynamic
handler and clears the machine-scoped fallback state. -/
def StateMachine.SetFallbackHandler (m : StateMachine K D)
    (handler : Context K D → Option Nat) : StateMachine K D :=
  { m with fallbackHandler := some handler, fallbackState := none }

/-- Go `StateMachine.SetFallbackState`: sets the machine-scoped fallback state
and clears the machine-scoped dynamic handler. -/
def StateMachine.SetFallbackState (m : StateMachine K D) (state : Nat) :
    StateMachine K D :=
  { m with fallbackState := some state, fallbackHandler := none }

/-- Go `StateMachine.AddOnTransition`: appends a transition listener (listeners
are opaque to the engine and identified by tokens). -/
def StateMachine.AddOnTransition (m : StateMachine K D) (tok : Nat) : StateMachine K D :=
  { m with onTransitionListeners := m.onTransitionListeners ++ [tok] }

/-- Go map lookup `state.transitions[key]` over the association-list model. -/
def lookupTransition [DecidableEq K] : List (K × Nat) → K → Option Nat
  | [], _ => none
  | (k, v) :: rest, key => if k = key then some v else lookupTransition rest key

/-- The target-resolution part of Go `StateMachine.fire` (lines bounding the
five `if nextState == nil` steps), translated branch by branch. -/
def resolve [DecidableEq K] (m : StateMachine K D) (current : Nat) (ctx : Context K D) :
    Option Nat :=
  let state := m.heap current
  let n0 := lookupTransition state.transitions ctx.eventKey
  let n1 :=
    match n0 with
    | none => state.fallbackTransition
    | some x => some x
  let n2 :=
    match n1 with
    | none =>
      match state.fallbackHandler with
      | some h => h ctx
      | none => none
    | some x => some x
  let n3 :=
    match n2 with
    | none => m.fallbackState
    | some x => some x
  let n4 :=
    match n3 with
    | none =>
      match m.fallbackHandler with
      | some h => h ctx
      | none => none
    | some x => some x
  n4

/-- Instrumentation events: one per handler invocation and one per transition
listener notification (with the episode's source and target state ids). -/
inductive TraceEv where
  | exited (s : Nat)
  | entered (s : Nat)
  | evented (s : Nat)
  | notified (listener fromS toS : Nat)
deriving DecidableEq

/-- Go `StateMachine.transition`: runs exit (if the state changes), enter (if
the state changes), the event handler, extracts a chained context, then
notifies every transition listener in registration order.  Returns the
emitted trace and the chained context, if any. -/
def StateMachine.transition [DecidableEq K] (m : StateMachine K D)
    (currentState nextState : Nat) (ctx0 : Context K D) :
    List TraceEv × Option (Context K D) :=
  let ctx1 := (ctx0.SetFrom currentState).SetTo nextState
  let diffState : Bool := nextState != currentState
  let step1 : List TraceEv × Context K D :=
    match (m.heap currentState).onExit with
    | some h => if diffState then ([TraceEv.exited currentState], h ctx1) else ([], ctx1)
    | none => ([], ctx1)
  let step2 : List TraceEv × Context K D :=
    match (m.heap nextState).onEnter with
    | some h =>
      if diffState then (step1.1 ++ [TraceEv.entered nextState], h step1.2) else step1
    | none => step1
  let step3 : List TraceEv × Option (Context K D) :=
    match (m.heap nextState).onEvent with
    | some h =>
      let c := h step2.2
      (step2.1 ++ [TraceEv.evented nextState], c.nextContext)
    | none => (step2.1, none)
  let notifies := m.onTransitionListeners.map
    (fun tok => TraceEv.notified tok currentState nextState)
  (step3.1 ++ notifies, step3.2)

/-- The engine's error values (`ErrTransitionNotFound` in Go, plus the fuel
bound the model adds for the unbounded Go recursion). -/
inductive FsmError (K : Type) where
  | transitionNotFound (state : String) (key : K)
  | outOfFuel
deriving DecidableEq

/-- Go `StateMachine.fire`: resolve a target, error if none, otherwise run the
transition and recurse on the chained context if one was produced. -/
def StateMachine.fire [DecidableEq K] (m : StateMachine K D) :
    Nat → Nat → Context K D → List TraceEv × Except (FsmError K) Nat
  | 0, _, _ => ([], Except.error FsmError.outOfFuel)
  | fuel + 1, current, ctx =>
    match resolve m current ctx with
    | none =>
      ([], Except.error (FsmError.transitionNotFound (m.heap current).name ctx.eventKey))
    | some nextState =>
      match m.transition current nextState ctx with
      | (tr, none) => (tr, Except.ok nextState)
      | (tr, some nextCtx) =>
        let r := m.fire fuel nextState nextCtx
        (tr ++ r.1, r.2)

/-- The context built by Go `StateMachine.Fire` from a key and options. -/
def mkContext (key : K) (options : List (EventOption K D)) : Context K D :=
  options.foldl (fun c o => applyOption o c) { eventKey := key }

/-- Go `StateMachine.Fire`: builds the context and runs `fire`. -/
def StateMachine.Fire [DecidableEq K] (m : StateMachine K D) (currentState : Nat) (key : K)
    (options : List (EventOption K D)) (fuel : Nat) :
    List TraceEv × Except (FsmError K) Nat :=
  m.fire fuel currentState (mkContext key options)

/-- Go `StateMachineInstance`: a copy of the definition plus a current state.
`FromState` performs `smCopy := *s`, so the instance owns its copy. -/
structure StateMachineInstance (K D : Type) where
  sm : StateMachine K D
  currentState : Nat

/-- Go `StateMachine.FromState`: copies the definition and positions the new
instance at the given state, running no handlers. -/
def StateMachine.FromState (m : StateMachine K D) (state : Nat) :
    StateMachineInstance K D :=
  { sm := m, currentState := state }

/-- `AddOnTransition` called through an instance mutates the instance's copy
of the definition (the embedded `*StateMachine` produced by `FromState`). -/
def StateMachineInstance.AddOnTransition (i : StateMachineInstance K D) (tok : Nat) :
    StateMachineInstance K D :=
  { i with sm := i.sm.AddOnTransition tok }

/-- Go `StateMachineInstance.Fire`: delegates to the definition's `Fire`; on
error the current state is left untouched, on success it becomes the returned
state.  Returns (trace, updated instance, error). -/
def StateMachineInstance.Fire [DecidableEq K] (i : StateMachineInstance K D) (key : K)
    (options : List (EventOption K D)) (fuel : Nat) :
    List TraceEv × StateMachineInstance K D × Option (FsmError K) :=
  match i.sm.Fire i.currentState key options fuel with
  | (tr, Except.error e) => (tr, i, some e)
  | (tr, Except.ok cur) => (tr, { i with currentState := cur }, none)

end Model

section Dot

variable {K D : Type}

/-- Go `node` (dot.go): a rendered node entry. -/
structure node where
  name : String
  edge : Bool
deriving DecidableEq

/-- Go `isEnd`: a state with no keyed transitions. -/
def isEnd (state : State K D) : Bool :=
  state.transitions.length == 0

/-- Go `StateMachine.isStart`: no *other* state (compared by name) has a keyed
transition targeting this state (compared by name). -/
def StateMachine.isStart (m : StateMachine K D) (state : Nat) : Bool :=
  m.states.all fun p =>
    let s := m.heap p.2
    if s.name == (m.heap state).name then true
    else s.transitions.all fun t => (m.heap t.2).name != (m.heap state).name

/-- Go `StateMachine.nodes`: one node per `orderedStates` entry, in insertion
order, flagged when terminal or initial. -/
def StateMachine.nodes (m : StateMachine K D) : List node :=
  m.orderedStates.map fun sid =>
    { name := (m.heap sid).name, edge := isEnd (m.heap sid) || m.isStart sid }

/-- One line of the `# nodes` block of Go `StateMachine.Dot`. -/
def dotNodeLine (currentName : String) (n : node) : String :=
  let active := n.name == currentName
  "\t" ++ n.name ++
    (if active || n.edge then
      " [style=filled" ++
        (if active then ", fillcolor=gold" else ", shape=doublecircle") ++ "]"
    else "") ++ ";\n"

/-- The transition strings gathered by Go `StateMachine.Dot` before sorting:
for each registered state, its keyed transitions, its state fallback (if set)
and — for every state — an edge to the machine fallback (if set).  `showK`
models Go's `%+v` rendering of the event key. -/
def dotTransitionStrings (showK : K → String) (m : StateMachine K D) : List String :=
  m.states.flatMap fun p =>
    let s := m.heap p.2
    (s.transitions.map fun t =>
      "\t" ++ s.name ++ " -> " ++ (m.heap t.2).name ++ " [label = \"" ++ showK t.1 ++
        "\"];\n") ++
    (match s.fallbackTransition with
     | some fb =>
       ["\t" ++ s.name ++ " -> " ++ (m.heap fb).name ++
         " [label=\"state fallback\", style=dashed];\n"]
     | none => []) ++
    (match m.fallbackState with
     | some fb =>
       ["\t" ++ s.name ++ " -> " ++ (m.heap fb).name ++
         " [label=\"machine fallback\", style=dashed];\n"]
     | none => [])

/-- Lexicographic (codepoint-by-codepoint) comparison of character lists, the
order `sort.Strings` sorts by. -/
def charListLe : List Char → List Char → Bool
  | [], _ => true
  | _ :: _, [] => false
  | a :: as, b :: bs =>
    if a.toNat < b.toNat then true
    else if b.toNat < a.toNat then false
    else charListLe as bs

/-- The `sort.Strings` order on strings. -/
def strLe (a b : String) : Bool :=
  charListLe a.toList b.toList

/-- Go `sort.Strings`: sort the gathered strings lexicographically.  (Equal
strings are identical, so any correct sort produces `sort.Strings`' output;
insertion sort is used so the model stays kernel-computable.) -/
def sortStrings (l : List String) : List String :=
  List.insertionSort (fun a b => strLe a b = true) l

/-- Go `StateMachine.Dot`: the full rendered digraph text. -/
def StateMachine.Dot (showK : K → String) (m : StateMachine K D) (currentState : Nat) :
    String :=
  "digraph finite_state_machine \x7b\n\trankdir=LR;" ++
    "\n\tnode [shape = circle];\n" ++
    "\t# nodes\n" ++
    String.join (m.nodes.map (dotNodeLine (m.heap currentState).name)) ++
    "\t# transitions\n" ++
    String.join (sortStrings (dotTransitionStrings showK m)) ++
    "\t# title" ++
    "\n\tlabelloc=\"t\";\n\tlabel=\"" ++ m.name ++ "\";\n" ++
    "\x7d"

end Dot

section SpecSide

variable {K D : Type}

/-- First-match choice over an ordered candidate list, following the spec's
"first match wins" wording for §4.1. -/
def firstMatch : List (Option Nat) → Option Nat
  | [] => none
  | some x :: _ => some x
  | none :: rest => firstMatch rest

/-- The resolution order as the spec words it: the five candidates tried first
to last (a dynamic handler's `none` meaning "no opinion").  Stated from the
spec to be compared against `resolve`, which is translated from the source. -/
def resolveSpec [DecidableEq K] (m : StateMachine K D) (current : Nat)
    (ctx : Context K D) : Option Nat :=
  let st := m.heap current
  firstMatch
    [lookupTransition st.transitions ctx.eventKey,
      st.fallbackTransition,
      st.fallbackHandler.bind fun h => h ctx,
      m.fallbackState,
      m.fallbackHandler.bind fun h => h ctx]

/-- The call sites a nested `Context.Fire` can be made from. -/
inductive CallSite where
  | onEnterSite
  | onExitSite
  | onEventSite
deriving DecidableEq

/-- Modelled from the spec: the repository's newest engine variant — present
under src only through its callers and tests (the trip test calls
`Context.Fire` inside a handler and propagates its returned error), with the
engine source itself missing — validates the call site of a nested
`Context.Fire`.  Per the spec (§4.2), only the on-event phase may request a
follow-up; from an on-enter or on-exit callback the call fails with a
"not a valid call site" error. -/
def contextFireAt (site : CallSite) (c : Context K D) (key : K)
    (overrideOptions : List (EventOption K D)) : Except String (Context K D) :=
  match site with
  | CallSite.onEventSite => Except.ok (c.Fire key overrideOptions)
  | CallSite.onEnterSite => Except.error "not a valid call site"
  | CallSite.onExitSite => Except.error "not a valid call site"

section FallbackOps

variable {K D : Type}

/-- The fallback-wiring calls at either scope, as an operation datatype. -/
inductive FallbackOp (K D : Type) where
  | staticFb (target : Nat)
  | dynamicFb (handler : Context K D → Option Nat)

def applyMachineFallbackOp (m : StateMachine K D) : FallbackOp K D → StateMachine K D
  | FallbackOp.staticFb target => m.SetFallbackState target
  | FallbackOp.dynamicFb handler => m.SetFallbackHandler handler

def applyStateFallbackOp (s : State K D) : FallbackOp K D → State K D
  | FallbackOp.staticFb target => s.SetFallbackTransition target
  | FallbackOp.dynamicFb handler => s.SetFallbackHandler handler

end FallbackOps

end SpecSide

section Examples

/-- A two-state machine A --"e"--> B with an exit handler on A, enter and
event handlers on B, one transition listener (token 3) and no fallbacks. -/
def exHeap : Nat → State String Unit
  | 0 => { name := "A", transitions := [("e", 1)], onExit := some fun c => c }
  | 1 => { name := "B", transitions := [], onEnter := some fun c => c,
           onEvent := some fun c => c }
  | _ => { name := "Z" }

def exSM : StateMachine String Unit :=
  { name := "ex", heap := exHeap, states := [("A", 0), ("B", 1)],
    orderedStates := [0, 1], onTransitionListeners := [3] }

/-- A --"TICK"--> B whose event handler chains "CONTINUE", B --"CONTINUE"--> C:
a terminating two-episode chain. -/
def chainHeap : Nat → State String Unit
  | 0 => { name := "A", transitions := [("TICK", 1)] }
  | 1 => { name := "B", transitions := [("CONTINUE", 2)],
           onEvent := some fun c => c.Fire "CONTINUE" [] }
  | 2 => { name := "C", transitions := [] }
  | _ => { name := "Z" }

def chainSM : StateMachine String Unit :=
  { name := "chain", heap := chainHeap, states := [("A", 0), ("B", 1), ("C", 2)],
    orderedStates := [0, 1, 2], onTransitionListeners := [3] }

/-- A --"e"--> B whose event handler chains "X", which nothing resolves:
a chain whose second episode fails. -/
def chainFailHeap : Nat → State String Unit
  | 0 => { name := "A", transitions := [("e", 1)] }
  | 1 => { name := "B", transitions := [], onEvent := some fun c => c.Fire "X" [] }
  | _ => { name := "Z" }

def chainFailSM : StateMachine String Unit :=
  { name := "chainFail", heap := chainFailHeap, states := [("A", 0), ("B", 1)],
    orderedStates := [0, 1], onTransitionListeners := [3] }

/-- Two distinct state objects sharing the name "S" (ids 0 and 1). -/
def sameNameHeap : Nat → State String Unit
  | 0 => { name := "S", transitions := [] }
  | 1 => { name := "S", transitions := [], onEnter := some fun c => c }
  | _ => { name := "Z" }

def sameNameSM : StateMachine String Unit :=
  { name := "dup", heap := sameNameHeap, states := [("S", 1)], orderedStates := [0, 1] }

/-- One machine shape (B --"x"--> A), registered in two different construction
orders: `dotBA` adds B first, `dotAB` adds A first. -/
def dotHeap : Nat → State String Unit
  | 0 => { name := "B", transitions := [("x", 1)] }
  | 1 => { name := "A", transitions := [] }
  | _ => { name := "Z" }

def dotBA : StateMachine String Unit :=
  { name := "iso", heap := dotHeap, states := [("B", 0), ("A", 1)],
    orderedStates := [0, 1] }

def dotAB : StateMachine String Unit :=
  { name := "iso", heap := dotHeap, states := [("A", 1), ("B", 0)],
    orderedStates := [1, 0] }

end Examples

section Helpers

variable {K D : Type}

theorem applyOption_eventKey (o : EventOption K D) (c : Context K D) :
    (applyOption o c).eventKey = c.eventKey := by
  cases o
  rfl

theorem foldl_applyOption_eventKey (options : List (EventOption K D)) :
    ∀ c : Context K D,
      (options.foldl (fun c o => applyOption o c) c).eventKey = c.eventKey := by
  induction options with
  | nil => intro c; rfl
  | cons o os ih => intro c; rw [List.foldl_cons, ih, applyOption_eventKey]

theorem mkContext_eventKey (key : K) (options : List (EventOption K D)) :
    (mkContext key options).eventKey = key := by
  unfold mkContext
  rw [foldl_applyOption_eventKey]

/-- The shape of a single episode's trace: exit iff the state changes and an
exit handler exists, enter iff the state changes and an enter handler exists,
event iff an event handler exists, then one notification per listener. -/
theorem transition_trace [DecidableEq K] (m : StateMachine K D) (a b : Nat)
    (ctx : Context K D) :
    (m.transition a b ctx).1 =
      (if b ≠ a ∧ (m.heap a).onExit.isSome then [TraceEv.exited a] else []) ++
      (if b ≠ a ∧ (m.heap b).onEnter.isSome then [TraceEv.entered b] else []) ++
      (if (m.heap b).onEvent.isSome then [TraceEv.evented b] else []) ++
      m.onTransitionListeners.map (fun tok => TraceEv.notified tok a b) := by
  unfold StateMachine.transition
  by_cases hba : b = a
  · subst hba
    cases hx : (m.heap b).onExit <;> cases hn : (m.heap b).onEnter <;>
      cases he : (m.heap b).onEvent <;>
      simp [hx, hn, he]
  · cases hx : (m.heap a).onExit <;> cases hn : (m.heap b).onEnter <;>
      cases he : (m.heap b).onEvent <;>
      simp [hx, hn, he, hba, bne_iff_ne]

end Helpers

section Claims

variable {K D : Type}

theorem firstMatch_cons (a : Option Nat) (l : List (Option Nat)) :
    firstMatch (a :: l) =
      match a with
      | some x => some x
      | none => firstMatch l := by
  cases a <;> rfl

/-- C1: for every machine, current state and event key, `fire` resolves its
target by the first match among (1) the keyed transition, (2) the state's
static fallback, (3) the state's dynamic fallback handler (a `none` result
meaning "no opinion"), (4) the machine's static fallback state, (5) the
machine's dynamic fallback handler — in this exact order — and errors with
`transitionNotFound` (carrying the state name and the key) when all five
produce nothing. -/
theorem c1_resolution_order [DecidableEq K] (m : StateMachine K D) (current : Nat)
    (ctx : Context K D) (fuel : Nat) :
    resolve m current ctx = resolveSpec m current ctx ∧
    (resolve m current ctx = none →
      m.fire (fuel + 1) current ctx =
        ([], Except.error (FsmError.transitionNotFound (m.heap current).name
          ctx.eventKey))) := by
  constructor
  · unfold resolve resolveSpec
    simp only [firstMatch_cons, firstMatch]
    cases h0 : lookupTransition (m.heap current).transitions ctx.eventKey with
    | some x => simp
    | none =>
      simp only []
      cases h1 : (m.heap current).fallbackTransition with
      | some x => simp
      | none =>
        simp only []
        cases h2 : (m.heap current).fallbackHandler with
        | none =>
          simp only [Option.bind_none]
          cases h3 : m.fallbackState with
          | some x => simp
          | none =>
            cases h4 : m.fallbackHandler with
            | none => simp
            | some mh => cases hmh : mh ctx <;> simp [hmh]
        | some sh =>
          simp only [Option.bind_some]
          cases hsh : sh ctx with
          | some x => simp [hsh]
          | none =>
            simp only [hsh]
            cases h3 : m.fallbackState with
            | some x => simp [hsh]
            | none =>
              cases h4 : m.fallbackHandler with
              | none => simp [hsh]
              | some mh => cases hmh : mh ctx <;> simp [hsh, hmh]
  · intro h
    simp [StateMachine.fire, h]

theorem c1_resolution_order_witness :
    StateMachine.fire exSM 1 0 (mkContext "k" []) =
      ([], Except.error (FsmError.transitionNotFound "A" "k")) :=
  (c1_resolution_order exSM 0 (mkContext "k" []) 0).2 rfl

/-- C4: when neither a keyed transition nor any fallback resolves the event,
the instance-level `Fire` returns a `transitionNotFound` error carrying the
current state's name and the event key, and returns the instance with its
current state unchanged. -/
theorem c4_transition_not_found [DecidableEq K] (i : StateMachineInstance K D) (key : K)
    (options : List (EventOption K D)) (fuel : Nat)
    (h : resolve i.sm i.currentState (mkContext key options) = none) :
    i.Fire key options (fuel + 1) =
      ([], i, some (FsmError.transitionNotFound ((i.sm.heap i.currentState).name) key)) := by
  simp [StateMachineInstance.Fire, StateMachine.Fire, StateMachine.fire, h,
    mkContext_eventKey]

theorem c4_transition_not_found_witness :
    (exSM.FromState 0).Fire "k" [] 1 =
      ([], exSM.FromState 0, some (FsmError.transitionNotFound "A" "k")) :=
  c4_transition_not_found (exSM.FromState 0) "k" [] 0 rfl

/-- C9: at either scope, after any nonempty sequence of fallback-setter calls,
exactly the field established by the last call is set and the other is
cleared (last-write-wins, not additive) — so at most one of the static target
and the dynamic handler is ever set. -/
theorem c9_fallback_last_write_wins (m : StateMachine K D) (s : State K D)
    (ops : List (FallbackOp K D)) (op : FallbackOp K D) :
    (match op with
     | FallbackOp.staticFb target =>
       ((ops ++ [op]).foldl applyMachineFallbackOp m).fallbackState = some target ∧
       ((ops ++ [op]).foldl applyMachineFallbackOp m).fallbackHandler = none
     | FallbackOp.dynamicFb handler =>
       ((ops ++ [op]).foldl applyMachineFallbackOp m).fallbackHandler = some handler ∧
       ((ops ++ [op]).foldl applyMachineFallbackOp m).fallbackState = none) ∧
    (match op with
     | FallbackOp.staticFb target =>
       ((ops ++ [op]).foldl applyStateFallbackOp s).fallbackTransition = some target ∧
       ((ops ++ [op]).foldl applyStateFallbackOp s).fallbackHandler = none
     | FallbackOp.dynamicFb handler =>
       ((ops ++ [op]).foldl applyStateFallbackOp s).fallbackHandler = some handler ∧
       ((ops ++ [op]).foldl applyStateFallbackOp s).fallbackTransition = none) := by
  rw [List.foldl_append, List.foldl_append]
  cases op <;>
    exact ⟨⟨rfl, rfl⟩, ⟨rfl, rfl⟩⟩

/-- C10: if any episode of a (possibly chained) `Fire` fails to resolve, the
instance's current state is exactly what it was before the call, while the
trace of the already-completed episodes is still what the engine emitted (the
earlier callbacks and notifications are not undone). -/
theorem c10_failed_chain_keeps_state [DecidableEq K] (i : StateMachineInstance K D)
    (key : K) (options : List (EventOption K D)) (fuel : Nat) (e : FsmError K)
    (h : (i.Fire key options fuel).2.2 = some e) :
    (i.Fire key options fuel).2.1 = i ∧
    (i.Fire key options fuel).1 = (i.sm.Fire i.currentState key options fuel).1 := by
  unfold StateMachineInstance.Fire at *
  cases hr : i.sm.Fire i.currentState key options fuel with
  | mk tr r =>
    cases r with
    | error e' => simp [hr]
    | ok cur => rw [hr] at h; simp at h

theorem c10_failed_chain_keeps_state_witness :
    ((chainFailSM.FromState 0).Fire "e" [] 3).1 ≠ [] ∧
    ((chainFailSM.FromState 0).Fire "e" [] 3).2.1 = chainFailSM.FromState 0 ∧
    ((chainFailSM.FromState 0).Fire "e" [] 3).1 =
      (chainFailSM.Fire 0 "e" [] 3).1 :=
  ⟨by decide,
    (c10_failed_chain_keeps_state (chainFailSM.FromState 0) "e" [] 3
      (FsmError.transitionNotFound "B" "X") (by decide)).1,
    (c10_failed_chain_keeps_state (chainFailSM.FromState 0) "e" [] 3
      (FsmError.transitionNotFound "B" "X") (by decide)).2⟩

/-- C2: a state-changing episode from A to B, with an exit handler on A and
enter and event handlers on B, runs exactly A.onExit, then B.onEnter, then
B.onEvent, then every transition listener in registration order — each once. -/
theorem c2_callback_order [DecidableEq K] (m : StateMachine K D) (a b : Nat)
    (ctx : Context K D) (he hn hv : Context K D → Context K D) (hab : a ≠ b)
    (h1 : (m.heap a).onExit = some he) (h2 : (m.heap b).onEnter = some hn)
    (h3 : (m.heap b).onEvent = some hv) :
    (m.transition a b ctx).1 =
      [TraceEv.exited a, TraceEv.entered b, TraceEv.evented b] ++
        m.onTransitionListeners.map fun tok => TraceEv.notified tok a b := by
  rw [transition_trace]
  have hba : b ≠ a := fun hb => hab hb.symm
  simp [hba, h1, h2, h3]

theorem c2_callback_order_witness :
    (exSM.transition 0 1 { eventKey := "e" }).1 =
      [TraceEv.exited 0, TraceEv.entered 1, TraceEv.evented 1] ++
        [TraceEv.notified 3 0 1] :=
  c2_callback_order exSM 0 1 { eventKey := "e" } (fun c => c) (fun c => c) (fun c => c)
    (by decide) rfl rfl rfl

/-- C5: when the resolved target is the very state object the machine is in
(`nextState != currentState` is pointer — here id — comparison), only the
event handler (if present) and the listener notifications run, never
enter/exit; and the comparison really is identity, not name: a *different*
state object with the same name still gets its enter handler run. -/
theorem c5_self_transition [DecidableEq K] (m : StateMachine K D) (cur : Nat)
    (ctx : Context K D) :
    ((m.transition cur cur ctx).1 =
      (if (m.heap cur).onEvent.isSome then [TraceEv.evented cur] else []) ++
        m.onTransitionListeners.map fun tok => TraceEv.notified tok cur cur) ∧
    (∀ (b : Nat) (hn : Context K D → Context K D), b ≠ cur →
      (m.heap b).onEnter = some hn →
      TraceEv.entered b ∈ (m.transition cur b ctx).1) := by
  constructor
  · rw [transition_trace]
    simp
  · intro b hn hb henter
    rw [transition_trace]
    simp [hb, henter]

theorem c5_self_transition_witness :
    TraceEv.entered 1 ∈ (sameNameSM.transition 0 1 { eventKey := "k" }).1 ∧
    (sameNameHeap 1).name = (sameNameHeap 0).name :=
  ⟨(c5_self_transition sameNameSM 0 { eventKey := "k" }).2 1 (fun c => c)
      (by decide) rfl,
    rfl⟩

/-- C3: a follow-up recorded by the event handler (via `Context.Fire`) makes
the same external `fire` call recurse from the just-reached state with the
derived context, appending the chained episodes' trace; the recursion stops
(with the episode's target as the final state) when no follow-up was
recorded; and the derived context carries the episode's payload unless the
handler's override options replaced it. -/
theorem c3_event_chaining [DecidableEq K] (m : StateMachine K D) (fuel cur next : Nat)
    (ctx : Context K D) (hres : resolve m cur ctx = some next) :
    (∀ c, (m.transition cur next ctx).2 = some c →
      m.fire (fuel + 1) cur ctx =
        ((m.transition cur next ctx).1 ++ (m.fire fuel next c).1,
          (m.fire fuel next c).2)) ∧
    ((m.transition cur next ctx).2 = none →
      m.fire (fuel + 1) cur ctx = ((m.transition cur next ctx).1, Except.ok next)) ∧
    (∀ (c : Context K D) (k : K),
      (c.Fire k []).nextContext = some { eventKey := k, data := c.data }) ∧
    (∀ (c : Context K D) (k : K) (d : D),
      (c.Fire k [EventOption.withData d]).nextContext =
        some { eventKey := k, data := some d }) := by
  refine ⟨?_, ?_, ?_, ?_⟩
  · intro c hc
    cases htr : m.transition cur next ctx with
    | mk tr nc =>
      rw [htr] at hc
      simp only at hc
      subst hc
      simp [StateMachine.fire, hres, htr]
  · intro hc
    cases htr : m.transition cur next ctx with
    | mk tr nc =>
      rw [htr] at hc
      simp only at hc
      subst hc
      simp [StateMachine.fire, hres, htr]
  · intro c k
    cases hd : c.data <;>
      simp [Context.Fire, Context.nextContext, applyOption, hd]
  · intro c k d
    cases hd : c.data <;>
      simp [Context.Fire, Context.nextContext, applyOption, hd]

theorem c3_event_chaining_witness :
    chainSM.fire 2 0 { eventKey := "TICK" } =
      ((chainSM.transition 0 1 { eventKey := "TICK" }).1 ++
        (chainSM.fire 1 1 { eventKey := "CONTINUE" }).1,
        (chainSM.fire 1 1 { eventKey := "CONTINUE" }).2) ∧
    ((chainSM.FromState 0).Fire "TICK" [] 2).2.1.currentState = 2 ∧
    ((chainSM.FromState 0).Fire "TICK" [] 2).2.2 = none ∧
    TraceEv.notified 3 0 1 ∈ ((chainSM.FromState 0).Fire "TICK" [] 2).1 ∧
    TraceEv.notified 3 1 2 ∈ ((chainSM.FromState 0).Fire "TICK" [] 2).1 :=
  ⟨(c3_event_chaining chainSM 1 0 1 { eventKey := "TICK" } (by decide)).1
      { eventKey := "CONTINUE" } (by decide),
    by decide, by decide, by decide, by decide⟩

theorem mem_transition_notified [DecidableEq K] (m : StateMachine K D) (c n : Nat)
    (ctx : Context K D) (tok a b : Nat)
    (h : TraceEv.notified tok a b ∈ (m.transition c n ctx).1) :
    tok ∈ m.onTransitionListeners := by
  rw [transition_trace] at h
  simp only [List.mem_append, List.mem_map] at h
  rcases h with ((h | h) | h) | ⟨x, hx, he⟩
  · split at h <;> simp_all
  · split at h <;> simp_all
  · split at h <;> simp_all
  · cases he
    exact hx

theorem fire_notified_mem_listeners [DecidableEq K] (m : StateMachine K D) :
    ∀ (fuel cur : Nat) (ctx : Context K D) (tok a b : Nat),
      TraceEv.notified tok a b ∈ (m.fire fuel cur ctx).1 →
      tok ∈ m.onTransitionListeners := by
  intro fuel
  induction fuel with
  | zero =>
    intro cur ctx tok a b h
    simp [StateMachine.fire] at h
  | succ n ih =>
    intro cur ctx tok a b h
    rw [StateMachine.fire] at h
    cases hres : resolve m cur ctx with
    | none =>
      simp [hres] at h
    | some next =>
      simp only [hres] at h
      cases htr : m.transition cur next ctx with
      | mk tr nc =>
        cases nc with
        | none =>
          rw [htr] at h
          simp only at h
          exact mem_transition_notified m cur next ctx tok a b (by rw [htr]; exact h)
        | some c =>
          rw [htr] at h
          simp only [List.mem_append] at h
          rcases h with h | h
          · exact mem_transition_notified m cur next ctx tok a b (by rw [htr]; exact h)
          · exact ih next c tok a b h

theorem instanceFire_trace [DecidableEq K] (i : StateMachineInstance K D) (key : K)
    (options : List (EventOption K D)) (fuel : Nat) :
    (i.Fire key options fuel).1 = (i.sm.Fire i.currentState key options fuel).1 := by
  unfold StateMachineInstance.Fire
  cases hr : i.sm.Fire i.currentState key options fuel with
  | mk tr r => cases r <;> rfl

/-- C6 fails on the code: `FromState` copies the `StateMachine` struct
(`smCopy := *s`), so a listener registered through instance i1 after the
instances were created lands in i1's copy only; a sibling i2 never notifies
it.  Here both instances come from `exSM` (whose only listener is token 3);
after adding token 7 through the first instance, a successful transition
fired on the second notifies 3 but never 7. -/
theorem c6_counterexample :
    ((exSM.FromState 0).AddOnTransition 7).sm.onTransitionListeners = [3, 7] ∧
    ((exSM.FromState 0).Fire "e" [] 2).2.2 = none ∧
    TraceEv.notified 3 0 1 ∈ ((exSM.FromState 0).Fire "e" [] 2).1 ∧
    TraceEv.notified 7 0 1 ∉ ((exSM.FromState 0).Fire "e" [] 2).1 :=
  ⟨rfl, by decide, by decide, by decide⟩

/-- C6 amended: an instance snapshots the definition's listener list at
creation (`FromState` copies the struct).  Listeners registered on the
definition before the instance was created are notified by that instance;
registering a listener through one instance afterwards extends only that
instance's copy, and a sibling instance never notifies a token absent from
the definition at its creation. -/
theorem c6_instance_listener_isolation [DecidableEq K] (sm : StateMachine K D)
    (s1 s2 tok : Nat) (key : K) (options : List (EventOption K D)) (fuel : Nat)
    (h : tok ∉ sm.onTransitionListeners) :
    ((sm.FromState s1).AddOnTransition tok).sm.onTransitionListeners =
      sm.onTransitionListeners ++ [tok] ∧
    (sm.FromState s2).sm.onTransitionListeners = sm.onTransitionListeners ∧
    ∀ a b, TraceEv.notified tok a b ∉ ((sm.FromState s2).Fire key options fuel).1 := by
  refine ⟨rfl, rfl, ?_⟩
  intro a b hmem
  rw [instanceFire_trace] at hmem
  exact h (fire_notified_mem_listeners sm fuel s2 (mkContext key options) tok a b hmem)

theorem c6_instance_listener_isolation_witness :
    ((exSM.FromState 0).AddOnTransition 7).sm.onTransitionListeners = [3] ++ [7] ∧
    TraceEv.notified 7 0 1 ∉ ((exSM.FromState 0).Fire "e" [] 2).1 :=
  ⟨(c6_instance_listener_isolation exSM 0 0 7 "e" [] 2 (by decide)).1,
    (c6_instance_listener_isolation exSM 0 0 7 "e" [] 2 (by decide)).2.2 0 1⟩

/-- C7 (modelled from the spec; the engine variant that validates call sites
is present under src only through its tests): a nested `Context.Fire` issued
from the on-enter or on-exit phase fails with the "not a valid call site"
error, while one issued during the on-event phase succeeds and records the
follow-up request. -/
theorem c7_nested_fire_call_site (site : CallSite) (c : Context K D) (key : K)
    (opts : List (EventOption K D)) (h : site ≠ CallSite.onEventSite) :
    contextFireAt site c key opts = Except.error "not a valid call site" ∧
    contextFireAt CallSite.onEventSite c key opts = Except.ok (c.Fire key opts) := by
  refine ⟨?_, rfl⟩
  cases site with
  | onEventSite => exact absurd rfl h
  | onEnterSite => rfl
  | onExitSite => rfl

theorem c7_nested_fire_call_site_witness :
    contextFireAt CallSite.onEnterSite ({ eventKey := "k" } : Context String Unit)
        "x" [] = Except.error "not a valid call site" :=
  (c7_nested_fire_call_site CallSite.onEnterSite { eventKey := "k" } "x" []
    (by decide)).1

/-- C8 fails on the code: `Dot` sorts the transition listing but emits the
node listing in `orderedStates` (insertion) order.  `dotBA` and `dotAB` are
the same machine registered in different orders: `dotBA`'s node listing is
["B", "A"] (not lexicographically sorted), the two renders differ as strings,
yet their sorted transition listings coincide. -/
theorem c8_counterexample :
    (dotBA.nodes).map node.name = ["B", "A"] ∧
    ¬ List.Sorted (fun a b => strLe a b = true) ((dotBA.nodes).map node.name) ∧
    StateMachine.Dot (fun k => k) dotBA 0 ≠ StateMachine.Dot (fun k => k) dotAB 0 ∧
    sortStrings (dotTransitionStrings (fun k => k) dotBA) =
      sortStrings (dotTransitionStrings (fun k => k) dotAB) :=
  ⟨by decide, by decide, by decide, by decide⟩

theorem charListLe_total (as bs : List Char) :
    charListLe as bs = true ∨ charListLe bs as = true := by
  induction as generalizing bs with
  | nil => exact Or.inl rfl
  | cons a as ih =>
    cases bs with
    | nil => exact Or.inr rfl
    | cons b bs =>
      simp only [charListLe]
      rcases Nat.lt_trichotomy a.toNat b.toNat with h | h | h
      · simp [h]
      · simp [h, Nat.lt_irrefl]
        exact ih bs
      · simp [h, Nat.lt_asymm h]

theorem charListLe_trans (as bs cs : List Char) (hab : charListLe as bs = true)
    (hbc : charListLe bs cs = true) : charListLe as cs = true := by
  induction as generalizing bs cs with
  | nil => rfl
  | cons a as ih =>
    cases bs with
    | nil => simp [charListLe] at hab
    | cons b bs =>
      cases cs with
      | nil => simp [charListLe] at hbc
      | cons c cs =>
        simp only [charListLe] at hab hbc ⊢
        by_cases h1 : a.toNat < b.toNat
        · by_cases h2 : b.toNat < c.toNat
          · simp [Nat.lt_trans h1 h2]
          · by_cases h3 : c.toNat < b.toNat
            · simp [h2, h3] at hbc
            · have hbceq : b.toNat = c.toNat :=
                Nat.le_antisymm (Nat.le_of_not_lt h3) (Nat.le_of_not_lt h2)
              simp [← hbceq, h1]
        · by_cases h1' : b.toNat < a.toNat
          · simp [h1, h1'] at hab
          · have habeq : a.toNat = b.toNat :=
              Nat.le_antisymm (Nat.le_of_not_lt h1') (Nat.le_of_not_lt h1)
            simp [h1, h1'] at hab
            by_cases h2 : b.toNat < c.toNat
            · have : a.toNat < c.toNat := habeq ▸ h2
              simp [this]
            · by_cases h3 : c.toNat < b.toNat
              · simp [h2, h3] at hbc
              · have hbceq : b.toNat = c.toNat :=
                  Nat.le_antisymm (Nat.le_of_not_lt h3) (Nat.le_of_not_lt h2)
                have haceq : a.toNat = c.toNat := habeq.trans hbceq
                simp [h2, h3] at hbc
                simp [haceq, Nat.lt_irrefl]
                exact ih bs cs hab hbc

theorem charListLe_antisymm (as bs : List Char) (h1 : charListLe as bs = true)
    (h2 : charListLe bs as = true) : as = bs := by
  induction as generalizing bs with
  | nil =>
    cases bs with
    | nil => rfl
    | cons b bs => simp [charListLe] at h2
  | cons a as ih =>
    cases bs with
    | nil => simp [charListLe] at h1
    | cons b bs =>
      simp only [charListLe] at h1 h2
      by_cases hab : a.toNat < b.toNat
      · simp [hab, Nat.lt_asymm hab] at h2
      · by_cases hba : b.toNat < a.toNat
        · simp [hab, hba] at h1
        · have heq : a.toNat = b.toNat :=
            Nat.le_antisymm (Nat.le_of_not_lt hba) (Nat.le_of_not_lt hab)
          have hchar : a = b := by
            apply Char.ext
            unfold Char.toNat at heq
            exact UInt32.toNat.inj heq
          simp [hab, hba] at h1 h2
          rw [hchar, ih bs h1 h2]

theorem sortStrings_sorted (l : List String) :
    List.Sorted (fun a b => strLe a b = true) (sortStrings l) := by
  haveI : IsTotal String (fun a b => strLe a b = true) :=
    ⟨fun a b => charListLe_total a.toList b.toList⟩
  haveI : IsTrans String (fun a b => strLe a b = true) :=
    ⟨fun a b c => charListLe_trans a.toList b.toList c.toList⟩
  exact List.sorted_insertionSort _ l

theorem sortStrings_perm_eq (l l' : List String) (hp : l.Perm l') :
    sortStrings l = sortStrings l' := by
  haveI : IsAntisymm String (fun a b => strLe a b = true) :=
    ⟨fun a b ha hb => by
      apply String.ext
      have h := charListLe_antisymm a.toList b.toList ha hb
      simpa [String.toList] using h⟩
  exact List.eq_of_perm_of_sorted
    ((List.perm_insertionSort _ l).trans (hp.trans (List.perm_insertionSort _ l').symm))
    (sortStrings_sorted l) (sortStrings_sorted l')

/-- C8 amended: the transition (edge) listing is lexicographically sorted
before emission and its emitted text is invariant under any reordering of
the gathered edge strings (hence byte-stable under Go's arbitrary map
iteration order), but the node listing is emitted in state-insertion order
(`orderedStates`), not sorted — isomorphic machines registered in different
orders agree on the sorted edge listing, not on the node listing. -/
theorem c8_renderer_determinism [DecidableEq K] (showK : K → String)
    (m m' : StateMachine K D)
    (hperm : (dotTransitionStrings showK m').Perm (dotTransitionStrings showK m)) :
    List.Sorted (fun a b => strLe a b = true)
      (sortStrings (dotTransitionStrings showK m)) ∧
    m.nodes.map node.name = m.orderedStates.map (fun sid => (m.heap sid).name) ∧
    String.join (sortStrings (dotTransitionStrings showK m')) =
      String.join (sortStrings (dotTransitionStrings showK m)) := by
  refine ⟨sortStrings_sorted _, ?_, ?_⟩
  · simp [StateMachine.nodes, List.map_map]
  · rw [sortStrings_perm_eq _ _ hperm]

theorem c8_renderer_determinism_witness :
    List.Sorted (fun a b => strLe a b = true)
      (sortStrings (dotTransitionStrings (fun k => k) dotBA)) ∧
    String.join (sortStrings (dotTransitionStrings (fun k => k) dotAB)) =
      String.join (sortStrings (dotTransitionStrings (fun k => k) dotBA)) :=
  ⟨(c8_renderer_determinism (fun k => k) dotBA dotAB (by decide)).1,
    (c8_renderer_determinism (fun k => k) dotBA dotAB (by decide)).2.2⟩

end Claims

end Fsm
